import Mathlib

/-! Shallow embedding of the pyunfold mixing / covariance core
(`src/pyunfold/mix.py`, plus `safe_inverse` from `src/pyunfold/Utils.py`),
with the numeric arrays modelled over ℚ.

Two complementary models are given, both translated directly from the
source:

* A `Fin`-indexed model (`CovParams`, `CovState`, `MixState`, `smear`,
  `set_current_state`, the covariance accessors and the standalone
  helpers).  Vectors are `Fin n → ℚ` and matrices are Mathlib `Matrix`.
  The flat column index `ej * cbins + tk` that the source uses for the
  response Jacobian `dcdP` is modelled by the product index
  `(ej, tk) : Fin ebins × Fin cbins` (the bijection `finProdFinEquiv`);
  every formula in the source addresses that axis only through such
  `(ej, tk)` pairs, so nothing is lost by keeping the two components.

* A list-based model (`LMixer`, `mkLMixer`, `lSmear`) that keeps the
  dynamic lengths of the original numpy arrays, so that the shape checks
  in `Mixer.__init__` / `Mixer.smear` and numpy's length-1 broadcasting
  of the efficiency vector are representable.  Here `dcdP` keeps the
  source's flat row-major layout.
-/

namespace PyUnfold

/-- Scalar safe inverse.  `Utils.safe_inverse` computes `1 / x` and then
overwrites the entries where the input was zero with zero, so a zero
input maps to zero and every other input maps to its reciprocal. -/
def safeInv (x : ℚ) : ℚ := if x = 0 then 0 else 1 / x

/-- Elementwise safe inverse of a vector (`Utils.safe_inverse`). -/
def safe_inverse {n : ℕ} (x : Fin n → ℚ) : Fin n → ℚ := fun i => safeInv (x i)

/-- Python `str.lower`, as applied to the covariance-type tag in
`CovarianceMatrix.__init__`. -/
def strLower (s : String) : String := String.mk (s.data.map Char.toLower)

/-- Equality of `Except` results is decidable; used to evaluate the
models at concrete inputs. -/
instance instDecEqExcept {ε α : Type _} [DecidableEq ε] [DecidableEq α] :
    DecidableEq (Except ε α)
  | Except.ok a, Except.ok b => decidable_of_iff (a = b) (by simp)
  | Except.ok _, Except.error _ => isFalse (fun h => Except.noConfusion h)
  | Except.error _, Except.ok _ => isFalse (fun h => Except.noConfusion h)
  | Except.error e, Except.error f => decidable_of_iff (e = f) (by simp)

/-- Failure kinds of the source: `shapeMismatch` for the `ValueError`s
raised on inconsistent array dimensions, `invalidConfig` for the
`ValueError` on an unrecognized covariance-type tag, `notImplemented`
for the `NotImplementedError` raised by the multinomial branch of
`CovarianceMatrix.getVcPP`. -/
inductive MixErr where
  | shapeMismatch
  | invalidConfig
  | notImplemented
  deriving DecidableEq

/-- The immutable inputs shared by `Mixer` and `CovarianceMatrix`
(`mix.py`, constructors).  `covTypeLow` holds the already-lowered
covariance tag `self.pec_cov_type = cov_type.lower()`; `NCmc` is the
effective number of simulation events
`(efficiencies * safe_inverse(efficiencies_err))**2`.  The derived
field `self.cEff_inv = safe_inverse(self.cEff)` is modelled by
`CovParams.cEff_inv` below. -/
structure CovParams (ebins cbins : ℕ) where
  pec : Matrix (Fin ebins) (Fin cbins) ℚ
  pec_err : Matrix (Fin ebins) (Fin cbins) ℚ
  covTypeLow : String
  cEff : Fin cbins → ℚ
  NCmc : Fin cbins → ℚ
  NEobs : Fin ebins → ℚ
  NEobs_err : Fin ebins → ℚ

/-- `self.cEff_inv = safe_inverse(self.cEff)`. -/
def CovParams.cEff_inv {ebins cbins : ℕ} (p : CovParams ebins cbins) : Fin cbins → ℚ :=
  safe_inverse p.cEff

/-- The record part of `CovarianceMatrix.__init__`: the stored inputs,
including the effective number of simulation events
`NCmc = (efficiencies * safe_inverse(efficiencies_err))**2`, with the
already-lowered covariance tag. -/
def covParamsOf (ebins cbins : ℕ) (data data_err : Fin ebins → ℚ)
    (efficiencies efficiencies_err : Fin cbins → ℚ)
    (response response_err : Matrix (Fin ebins) (Fin cbins) ℚ)
    (covTypeLow : String) : CovParams ebins cbins :=
  { pec := response
    pec_err := response_err
    covTypeLow := covTypeLow
    cEff := efficiencies
    NCmc := fun k => (efficiencies k * safeInv (efficiencies_err k)) ^ 2
    NEobs := data
    NEobs_err := data_err }

/-- `CovarianceMatrix.__init__`: validates the covariance-type tag
(`cov_type.lower() not in ['multinomial', 'poisson']` raises a
`ValueError`) and stores the inputs.  Shape consistency is enforced by
the `Fin` types in this model; the dynamic shape checks of
`Mixer.__init__` are modelled separately at the list level. -/
def mkCovarianceMatrix (ebins cbins : ℕ) (data data_err : Fin ebins → ℚ)
    (efficiencies efficiencies_err : Fin cbins → ℚ)
    (response response_err : Matrix (Fin ebins) (Fin cbins) ℚ)
    (cov_type : String) : Except MixErr (CovParams ebins cbins) :=
  if ¬(strLower cov_type = "multinomial" ∨ strLower cov_type = "poisson") then
    Except.error MixErr.invalidConfig
  else
    Except.ok (covParamsOf ebins cbins data data_err efficiencies efficiencies_err
      response response_err (strLower cov_type))

/-- The mutable state owned by `CovarianceMatrix`: the two persisted
Jacobians `self.dcdn`, `self.dcdP` and the iteration counter.  The
`dcdP` column `(ej, tk)` models the source's flat column
`ej * cbins + tk`. -/
structure CovState (ebins cbins : ℕ) where
  dcdn : Matrix (Fin ebins) (Fin cbins) ℚ
  dcdP : Matrix (Fin cbins) (Fin ebins × Fin cbins) ℚ
  counter : ℕ

/-- The zero state installed by `CovarianceMatrix.__init__`:
both Jacobians all-zero, counter 0. -/
def initCovState (ebins cbins : ℕ) : CovState ebins cbins :=
  { dcdn := 0, dcdP := 0, counter := 0 }

/-- `NE_F_R = self.NEobs * safe_inverse(f_norm)` from
`CovarianceMatrix._initialize_dcdP`; this is the vector called `g` in
the specification (`g[e] = d[e] * f_inv[e]`). -/
def NE_F_R {ebins cbins : ℕ} (p : CovParams ebins cbins) (f_norm : Fin ebins → ℚ) :
    Fin ebins → ℚ :=
  fun ej => p.NEobs ej * safeInv (f_norm ej)

/-- `CovarianceMatrix._initialize_dcdP`.  The first double loop writes
`dcdP[ti, ej*cbins + tk] = A[ti, tk]` with
`A = outer(-NE_F_R[ej] * Mij[ej, :], n_c_prev)`; the second loop adds,
on the columns with `tk = ti`,
`A[ti, ej]` with `A = (outer(n_c_prev, NE_F_R) - n_c[:, None]) * cEff_inv[:, None]`. -/
def initDcdP {ebins cbins : ℕ} (p : CovParams ebins cbins)
    (Mij : Matrix (Fin ebins) (Fin cbins) ℚ) (f_norm : Fin ebins → ℚ)
    (n_c n_c_prev : Fin cbins → ℚ) :
    Matrix (Fin cbins) (Fin ebins × Fin cbins) ℚ :=
  fun ti q =>
    (-(NE_F_R p f_norm q.1) * Mij q.1 ti) * n_c_prev q.2 +
      (if q.2 = ti then
        (n_c_prev ti * NE_F_R p f_norm q.1 - n_c ti) * p.cEff_inv ti
      else 0)

/-- `CovarianceMatrix._adye_propagation_corrections`, line for line:
`nc_r = n_c * n_c_prev_inv`, `e_r = cEff * n_c_prev_inv`,
`M1 = dcdn_prev * nc_r` (column scaling),
`M2 = (-Mij * e_r).T * NEobs` (column scaling, transpose, then scaling
of the effect axis), `M3 = M2 @ dcdn_prev`,
`dcdn = Mij + Mij @ M3 + M1`;
`At = Mij.T * NEobs`, `B = Mij * e_r`, `C = At @ B`,
`dcdP_Upd = C @ dcdP_prev`,
`dcdP = dcdP0 + (dcdP_prev.T * nc_r).T - dcdP_Upd` (the middle term
scales the cause-row `ti` of `dcdP_prev` by `nc_r[ti]`). -/
def adye_propagation_corrections {ebins cbins : ℕ} (p : CovParams ebins cbins)
    (st : CovState ebins cbins)
    (dcdP0 : Matrix (Fin cbins) (Fin ebins × Fin cbins) ℚ)
    (Mij : Matrix (Fin ebins) (Fin cbins) ℚ)
    (n_c n_c_prev : Fin cbins → ℚ) :
    Matrix (Fin ebins) (Fin cbins) ℚ × Matrix (Fin cbins) (Fin ebins × Fin cbins) ℚ :=
  let dcdn_prev := st.dcdn
  let dcdP_prev := st.dcdP
  let n_c_prev_inv : Fin cbins → ℚ := fun k => safeInv (n_c_prev k)
  let nc_r : Fin cbins → ℚ := fun k => n_c k * n_c_prev_inv k
  let e_r : Fin cbins → ℚ := fun k => p.cEff k * n_c_prev_inv k
  let M1 : Matrix (Fin ebins) (Fin cbins) ℚ := fun i k => dcdn_prev i k * nc_r k
  let M2 : Matrix (Fin cbins) (Fin ebins) ℚ := fun k i => (-(Mij i k) * e_r k) * p.NEobs i
  let M3 : Matrix (Fin cbins) (Fin cbins) ℚ := M2 * dcdn_prev
  let dcdn := Mij + Mij * M3 + M1
  let At : Matrix (Fin cbins) (Fin ebins) ℚ := fun k i => Mij i k * p.NEobs i
  let B : Matrix (Fin ebins) (Fin cbins) ℚ := fun i k => Mij i k * e_r k
  let Cm : Matrix (Fin cbins) (Fin cbins) ℚ := At * B
  let dcdP_Upd := Cm * dcdP_prev
  let rowScaled : Matrix (Fin cbins) (Fin ebins × Fin cbins) ℚ :=
    fun ti q => dcdP_prev ti q * nc_r ti
  let dcdP := dcdP0 + (rowScaled - dcdP_Upd)
  (dcdn, dcdP)

/-- `CovarianceMatrix.set_current_state`: computes the first-order
`dcdP` and `dcdn = Mij`, applies the Adye corrections when
`self.counter > 0`, stores both Jacobians and increments the counter. -/
def set_current_state {ebins cbins : ℕ} (p : CovParams ebins cbins)
    (st : CovState ebins cbins) (Mij : Matrix (Fin ebins) (Fin cbins) ℚ)
    (f_norm : Fin ebins → ℚ) (n_c n_c_prev : Fin cbins → ℚ) :
    CovState ebins cbins :=
  let dcdP0 := initDcdP p Mij f_norm n_c n_c_prev
  let res :=
    if 0 < st.counter then adye_propagation_corrections p st dcdP0 Mij n_c n_c_prev
    else (Mij, dcdP0)
  { dcdn := res.1, dcdP := res.2, counter := st.counter + 1 }

/-- The state owned by `Mixer`: the cached mixing matrix `self.Mij`
and the owned `CovarianceMatrix` state. -/
structure MixState (ebins cbins : ℕ) where
  Mij : Matrix (Fin ebins) (Fin cbins) ℚ
  cov : CovState ebins cbins

/-- The fresh `Mixer` state: `self.Mij` all-zero and a fresh
`CovarianceMatrix` state. -/
def initMixState (ebins cbins : ℕ) : MixState ebins cbins :=
  { Mij := 0, cov := initCovState ebins cbins }

/-- `Mixer.smear`: `f_norm = pec @ n_c`, `f_inv = safe_inverse(f_norm)`,
`n_c_eff = n_c * cEff_inv`, `Mij = pec * n_c_eff * f_inv.reshape(-1, 1)`,
`n_c_update = NEobs @ Mij`; stores `Mij`, forwards
`(Mij, f_norm, n_c_update, n_c)` to `set_current_state` and returns
`n_c_update`.  The dynamic length check on the prior is modelled at the
list level (`lSmear`); here lengths are enforced by the types. -/
def smear {ebins cbins : ℕ} (p : CovParams ebins cbins) (st : MixState ebins cbins)
    (n_c : Fin cbins → ℚ) : MixState ebins cbins × (Fin cbins → ℚ) :=
  let f_norm := p.pec.mulVec n_c
  let f_inv := safe_inverse f_norm
  let n_c_eff : Fin cbins → ℚ := fun k => n_c k * p.cEff_inv k
  let Mij : Matrix (Fin ebins) (Fin cbins) ℚ := fun i k => p.pec i k * n_c_eff k * f_inv i
  let n_c_update : Fin cbins → ℚ := fun k => ∑ i, p.NEobs i * Mij i k
  (⟨Mij, set_current_state p st.cov Mij f_norm n_c_update n_c⟩, n_c_update)

/-- `CovarianceMatrix.getVcd`: the diagonal matrix of the squared
per-bin data uncertainties. -/
def getVcd {ebins cbins : ℕ} (p : CovParams ebins cbins) : Matrix (Fin ebins) (Fin ebins) ℚ :=
  Matrix.diagonal (fun i => p.NEobs_err i * p.NEobs_err i)

/-- `CovarianceMatrix.getVc0 = dcdn.T @ Vcd @ dcdn`. -/
def getVc0 {ebins cbins : ℕ} (p : CovParams ebins cbins)
    (dcdn : Matrix (Fin ebins) (Fin cbins) ℚ) : Matrix (Fin cbins) (Fin cbins) ℚ :=
  dcdn.transpose * getVcd p * dcdn

/-- Module-level `poisson_covariance`: the diagonal matrix of the
squared raveled response errors; the flat index `ej * cbins + ti` is
modelled by the pair `(ej, ti)`. -/
def poisson_covariance (ebins cbins : ℕ)
    (pec_err : Matrix (Fin ebins) (Fin cbins) ℚ) :
    Matrix (Fin ebins × Fin cbins) (Fin ebins × Fin cbins) ℚ :=
  Matrix.diagonal (fun q => pec_err q.1 q.2 * pec_err q.1 q.2)

/-- Module-level `multinomial_covariance`.  The source fills a zero
matrix with three families of single-assignment writes: the diagonal
`CovPP[ej*cbins+ti, ej*cbins+ti] = (nc_inv * pec * (1 - pec))[ej, ti]`
(so `nc_inv`, a cause-length vector, is broadcast over the effect rows
and indexed by the cause `ti`), and for every pair of effect rows
`ej < ek` the two symmetric writes
`CovPP[ej*cbins+ti, ek*cbins+ti] = CovPP[ek*cbins+ti, ej*cbins+ti]
 = (-nc_inv * pec[ej, :] * pec)[ek, ti]`.
All other entries stay zero.  The writes touch pairwise distinct
entries, so the built matrix is exactly this closed form. -/
def multinomial_covariance (ebins cbins : ℕ) (nc_inv : Fin cbins → ℚ)
    (pec : Matrix (Fin ebins) (Fin cbins) ℚ) :
    Matrix (Fin ebins × Fin cbins) (Fin ebins × Fin cbins) ℚ :=
  fun q r =>
    if q.2 = r.2 then
      if q.1 = r.1 then nc_inv q.2 * pec q.1 q.2 * (1 - pec q.1 q.2)
      else -(nc_inv q.2) * pec q.1 q.2 * pec r.1 q.2
    else 0

/-- `CovarianceMatrix.getVcPP`: dispatches on the stored tag; the
poisson branch builds `poisson_covariance`, the multinomial branch
raises `NotImplementedError`.  For a tag produced by the validating
constructor the final branch is unreachable (in the source it would hit
an unbound local). -/
def getVcPP {ebins cbins : ℕ} (p : CovParams ebins cbins) :
    Except MixErr (Matrix (Fin ebins × Fin cbins) (Fin ebins × Fin cbins) ℚ) :=
  if p.covTypeLow = "poisson" then Except.ok (poisson_covariance ebins cbins p.pec_err)
  else if p.covTypeLow = "multinomial" then Except.error MixErr.notImplemented
  else Except.error MixErr.invalidConfig

/-- `CovarianceMatrix.getVc1 = dcdP @ getVcPP() @ dcdP.T`; a failure of
`getVcPP` propagates. -/
def getVc1 {ebins cbins : ℕ} (p : CovParams ebins cbins)
    (dcdP : Matrix (Fin cbins) (Fin ebins × Fin cbins) ℚ) :
    Except MixErr (Matrix (Fin cbins) (Fin cbins) ℚ) :=
  (getVcPP p).map (fun CovPP => dcdP * CovPP * dcdP.transpose)

/-- `CovarianceMatrix.get_cov = getVc0() + getVc1()`; a failure of
`getVc1` propagates. -/
def get_cov {ebins cbins : ℕ} (p : CovParams ebins cbins)
    (dcdn : Matrix (Fin ebins) (Fin cbins) ℚ)
    (dcdP : Matrix (Fin cbins) (Fin ebins × Fin cbins) ℚ) :
    Except MixErr (Matrix (Fin cbins) (Fin cbins) ℚ) :=
  match getVc1 p dcdP with
  | Except.error err => Except.error err
  | Except.ok Vc1 => Except.ok (getVc0 p dcdn + Vc1)

/-- Modelled from the spec: the value the specification asserts is
stored as the data Jacobian when the Adye branch runs,
`dn_new = M · [ (−(M ⊙_col s)ᵗ ⊙_row d) · dn_prev ] + dn_prev ⊙_col r`
with `r = n_new ⊘ n_prev` and `s = eff ⊘ n_prev` (safe inverses).
Stated separately from the source translation so that the two can be
compared. -/
def dn_spec_formula {ebins cbins : ℕ} (p : CovParams ebins cbins)
    (Mij dcdn_prev : Matrix (Fin ebins) (Fin cbins) ℚ)
    (n_c n_c_prev : Fin cbins → ℚ) : Matrix (Fin ebins) (Fin cbins) ℚ :=
  let r : Fin cbins → ℚ := fun k => n_c k * safeInv (n_c_prev k)
  let s : Fin cbins → ℚ := fun k => p.cEff k * safeInv (n_c_prev k)
  let inner : Matrix (Fin cbins) (Fin ebins) ℚ := fun k i => -(Mij i k * s k) * p.NEobs i
  let colScaled : Matrix (Fin ebins) (Fin cbins) ℚ := fun i k => dcdn_prev i k * r k
  Mij * (inner * dcdn_prev) + colScaled

/-! ### List-level model

This second translation keeps the dynamic array lengths of the numpy
originals.  Matrices are rectangular `List (List ℚ)` row lists (the
source's response matrices are 2-dimensional numpy arrays, so the
`response.ndim != 2` check of `Mixer.__init__` is inherent to the
type).  Elementwise products use `bmul`, numpy's 1-d broadcasting rule:
equal lengths multiply pointwise, a length-1 operand is stretched, and
anything else is a broadcast error. -/

/-- Elementwise safe inverse of a list (`Utils.safe_inverse`). -/
def lSafeInverse (x : List ℚ) : List ℚ := x.map safeInv

/-- numpy 1-d broadcasting product: pointwise on equal lengths, a
length-1 operand is stretched, any other combination is an error. -/
def bmul (x y : List ℚ) : Option (List ℚ) :=
  if x.length = y.length then some (List.zipWith (fun a b => a * b) x y)
  else if y.length = 1 then some (x.map (fun a => a * y.headD 0))
  else if x.length = 1 then some (y.map (fun b => x.headD 0 * b))
  else none

/-- Dot product of two equal-length lists. -/
def ldot (x y : List ℚ) : ℚ := (List.zipWith (fun a b => a * b) x y).sum

/-- Matrix-vector product `M @ v` on row lists. -/
def lMatVec (M : List (List ℚ)) (v : List ℚ) : List ℚ := M.map (fun row => ldot row v)

/-- Transpose of a row-list matrix with `ncols` columns. -/
def lT (M : List (List ℚ)) (ncols : ℕ) : List (List ℚ) :=
  (List.range ncols).map (fun j => M.map (fun row => row.getD j 0))

/-- Matrix product `A @ B` on row lists, `B` having `ncolsB` columns. -/
def lMatMul (A B : List (List ℚ)) (ncolsB : ℕ) : List (List ℚ) :=
  A.map (fun row => (lT B ncolsB).map (fun colB => ldot row colB))

/-- Elementwise sum of two row-list matrices of the same shape. -/
def lAdd (A B : List (List ℚ)) : List (List ℚ) :=
  List.zipWith (fun ra rb => List.zipWith (fun a b => a + b) ra rb) A B

/-- Elementwise difference of two row-list matrices of the same shape. -/
def lSub (A B : List (List ℚ)) : List (List ℚ) :=
  List.zipWith (fun ra rb => List.zipWith (fun a b => a - b) ra rb) A B

/-- All-zero `r × c` row-list matrix (`torch.zeros`). -/
def lzeros (r c : ℕ) : List (List ℚ) :=
  List.replicate r (List.replicate c (0 : ℚ))

/-- `Mixer` together with its owned `CovarianceMatrix`, at the list
level: the immutable inputs, the derived `cEff_inv`, the cached mixing
matrix `Mij`, the persisted Jacobians `dcdn` / `dcdP` (the latter in
the source's flat `cbins × (cbins * ebins)` layout) and the iteration
counter. -/
structure LMixer where
  pec : List (List ℚ)
  pec_err : List (List ℚ)
  cEff : List ℚ
  cEff_inv : List ℚ
  NEobs : List ℚ
  NEobs_err : List ℚ
  ebins : ℕ
  cbins : ℕ
  Mij : List (List ℚ)
  dcdn : List (List ℚ)
  dcdP : List (List ℚ)
  counter : ℕ
  deriving DecidableEq

/-- List-level failure kinds: `lShapeMismatch` for the explicit
`ValueError`s of `Mixer.__init__` / `Mixer.smear`, `lInvalidConfig` for
the covariance-tag `ValueError`, `lBroadcastError` for a numpy
broadcasting failure inside the arithmetic. -/
inductive LErr where
  | lShapeMismatch
  | lInvalidConfig
  | lBroadcastError
  deriving DecidableEq

/-- `Mixer.__init__` at the list level: raises on
`data.shape[0] != response.shape[0]`, then (through the owned
`CovarianceMatrix.__init__`) on an invalid covariance tag; it performs
no check at all on the efficiency vector.  `cbins` and `ebins` are
`response.shape[1]` and `response.shape[0]`; the Jacobians start
all-zero with the counter at 0. -/
def mkLMixer (data data_err efficiencies efficiencies_err : List ℚ)
    (response response_err : List (List ℚ)) (cov_type : String) :
    Except LErr LMixer :=
  if data.length ≠ response.length then Except.error LErr.lShapeMismatch
  else if ¬(strLower cov_type = "multinomial" ∨ strLower cov_type = "poisson") then
    Except.error LErr.lInvalidConfig
  else
    let cbins := (response.headD []).length
    let ebins := response.length
    Except.ok
      { pec := response
        pec_err := response_err
        cEff := efficiencies
        cEff_inv := lSafeInverse efficiencies
        NEobs := data
        NEobs_err := data_err
        ebins := ebins
        cbins := cbins
        Mij := lzeros ebins cbins
        dcdn := lzeros ebins cbins
        dcdP := lzeros cbins (cbins * ebins)
        counter := 0 }

/-- `Mixer.smear` at the list level, with
`CovarianceMatrix.set_current_state` (and its two helpers) inlined.
The length check on the prior is the first statement, before any state
is touched; the returned state is the input state whenever an error is
returned.  Broadcasting points follow numpy: `n_c * cEff_inv` and
`cEff * n_c_prev_inv` go through `bmul` (the efficiency vector may
legally have length 1 and be stretched), and the factor
`cEff_inv[:, None]` inside `_initialize_dcdP` reads entry `ti` of a
full-length `cEff_inv` or entry 0 of a length-1 one.  All remaining
operands have structurally matching lengths.  `dcdP` rows are built as
the concatenation over `ej` of the `cbins`-wide blocks of columns
`ej * cbins + tk`. -/
def lSmear (m : LMixer) (n_c : List ℚ) : LMixer × Except LErr (List ℚ) :=
  if n_c.length ≠ m.cbins then (m, Except.error LErr.lShapeMismatch)
  else
    let f_norm := lMatVec m.pec n_c
    let f_inv := lSafeInverse f_norm
    match bmul n_c m.cEff_inv with
    | none => (m, Except.error LErr.lBroadcastError)
    | some n_c_eff =>
      let Mij := List.zipWith
        (fun row fi => (List.zipWith (fun a b => a * b) row n_c_eff).map (fun a => a * fi))
        m.pec f_inv
      let n_c_update := (List.range m.cbins).map
        (fun k => (List.zipWith (fun d row => d * row.getD k 0) m.NEobs Mij).sum)
      let NE_F_R := List.zipWith (fun a b => a * b) m.NEobs (lSafeInverse f_norm)
      let effInvB : ℕ → ℚ := fun ti =>
        if m.cEff_inv.length = 1 then m.cEff_inv.headD 0 else m.cEff_inv.getD ti 0
      let dcdP0 := (List.range m.cbins).map (fun ti =>
        ((List.range m.ebins).map (fun ej => (List.range m.cbins).map (fun tk =>
          (-(NE_F_R.getD ej 0) * ((Mij.getD ej []).getD ti 0)) * n_c.getD tk 0 +
            (if tk = ti then
              (n_c.getD ti 0 * NE_F_R.getD ej 0 - n_c_update.getD ti 0) * effInvB ti
            else 0)))).flatten)
      if 0 < m.counter then
        let n_c_prev_inv := lSafeInverse n_c
        let nc_r := List.zipWith (fun a b => a * b) n_c_update n_c_prev_inv
        match bmul m.cEff n_c_prev_inv with
        | none => (m, Except.error LErr.lBroadcastError)
        | some e_r =>
          let M1 := m.dcdn.map (fun row => List.zipWith (fun a b => a * b) row nc_r)
          let M2 := (lT (Mij.map (fun row => List.zipWith (fun a b => -a * b) row e_r))
            m.cbins).map (fun row => List.zipWith (fun a b => a * b) row m.NEobs)
          let M3 := lMatMul M2 m.dcdn m.cbins
          let dcdn := lAdd (lAdd Mij (lMatMul Mij M3 m.cbins)) M1
          let At := (lT Mij m.cbins).map
            (fun row => List.zipWith (fun a b => a * b) row m.NEobs)
          let B := Mij.map (fun row => List.zipWith (fun a b => a * b) row e_r)
          let Cm := lMatMul At B m.cbins
          let dcdP_Upd := lMatMul Cm m.dcdP (m.cbins * m.ebins)
          let rowScaled := List.zipWith (fun r row => row.map (fun a => a * r)) nc_r m.dcdP
          let dcdP := lAdd dcdP0 (lSub rowScaled dcdP_Upd)
          ({ m with Mij := Mij, dcdn := dcdn, dcdP := dcdP, counter := m.counter + 1 },
            Except.ok n_c_update)
      else
        ({ m with Mij := Mij, dcdn := Mij, dcdP := dcdP0, counter := m.counter + 1 },
          Except.ok n_c_update)

/-! ### Concrete instances used to evaluate the models -/

/-- A 1 effect-bin / 1 cause-bin instance: `R = [[1]]`, `eff = [1]`,
`data = [2]`, all errors 1, poisson mode. -/
def exPa : CovParams 1 1 :=
  { pec := !![1], pec_err := !![0], covTypeLow := "poisson", cEff := ![1],
    NCmc := ![1], NEobs := ![2], NEobs_err := ![1] }

/-- First `smear` of `exPa` from the fresh state, with prior `[1]`. -/
def exRun1 : MixState 1 1 × (Fin 1 → ℚ) := smear exPa (initMixState 1 1) ![1]

/-- Second `smear` of `exPa`, feeding the first posterior `[2]` back as
the prior; its covariance update runs the Adye branch. -/
def exRun2 : MixState 1 1 × (Fin 1 → ℚ) := smear exPa exRun1.1 ![2]

/-- The spec's 2×2 concrete scenario:
`R = [[0.9,0.1],[0.1,0.9]]`, `eff = [1,1]`, `data = [90,110]`. -/
def exP2 : CovParams 2 2 :=
  { pec := !![9/10, 1/10; 1/10, 9/10], pec_err := !![0,0;0,0],
    covTypeLow := "poisson", cEff := ![1,1], NCmc := ![1,1],
    NEobs := ![90,110], NEobs_err := ![1,1] }

/-- A 2×2 instance whose response columns each sum to 1 but whose
second effect row is all-zero, so the second predicted-effect bin is
empty: `R = [[1,1],[0,0]]`, `eff = [1,1]`, `data = [1,1]`. -/
def exP3 : CovParams 2 2 :=
  { pec := !![1,1;0,0], pec_err := !![0,0;0,0], covTypeLow := "poisson",
    cEff := ![1,1], NCmc := ![1,1], NEobs := ![1,1], NEobs_err := ![1,1] }

/-- A 1×1 poisson instance with a nonzero response error, for
evaluating the covariance accessors. -/
def exP6 : CovParams 1 1 :=
  { pec := !![1], pec_err := !![2], covTypeLow := "poisson", cEff := ![1],
    NCmc := ![1], NEobs := ![2], NEobs_err := ![1] }

/-- A concrete 1 × (1·1) response Jacobian with constant entry 3. -/
def exDP1 : Matrix (Fin 1) (Fin 1 × Fin 1) ℚ := fun _ _ => 3

/-- The value of the first-order response Jacobian stored by the first
`smear` of `exPa`: a single entry `-2`. -/
def exDPval : Matrix (Fin 1) (Fin 1 × Fin 1) ℚ := fun _ _ => -2

/-- The list-level `Mixer` state built by `mkLMixer` from `data = [10]`,
`response = [[1/2, 1/2]]` and the length-1 efficiency vector `[1]`
(2 cause bins, so the efficiency length does not match). -/
def exL0 : LMixer :=
  { pec := [[1/2, 1/2]], pec_err := [[0, 0]], cEff := [1], cEff_inv := [1],
    NEobs := [10], NEobs_err := [1], ebins := 1, cbins := 2,
    Mij := [[0, 0]], dcdn := [[0, 0]], dcdP := [[0, 0], [0, 0]], counter := 0 }

/-! ### Claims -/

/-- C4: for every array `x` and index `i`, `safe_inverse(x)[i]` is `0`
where `x[i] = 0` and `1 / x[i]` elsewhere.  (In this embedding over ℚ
every output is a finite rational, so no non-finite value can appear.) -/
theorem c4_safe_inverse (n : ℕ) (x : Fin n → ℚ) (i : Fin n) :
    (x i = 0 → safe_inverse x i = 0) ∧ (x i ≠ 0 → safe_inverse x i = 1 / x i) := by
  constructor <;> intro h <;> simp [safe_inverse, safeInv, h]

/-- Witness for C4 at the concrete array `[2, 0]`. -/
theorem c4_safe_inverse_witness :
    safe_inverse ![(2 : ℚ), 0] 0 = 1 / 2 ∧ safe_inverse ![(2 : ℚ), 0] 1 = 0 :=
  ⟨(c4_safe_inverse 2 ![2, 0] 0).2 (by norm_num),
    (c4_safe_inverse 2 ![2, 0] 1).1 (by norm_num)⟩

/-- C2 fails as stated: on `R = [[0.9,0.1],[0.1,0.9]]`, `eff = [1,1]`,
`data = [90,110]`, `prior = [100,100]` the first `smear` returns
`[92, 108]`, not the claimed `[91, 109]` (off by a full unit, far
beyond floating tolerance). -/
theorem c2_counterexample :
    (smear exP2 (initMixState 2 2) ![100, 100]).2 0 = 92 ∧
    (smear exP2 (initMixState 2 2) ![100, 100]).2 1 = 108 ∧
    (92 : ℚ) ≠ 91 ∧ (108 : ℚ) ≠ 109 := by
  refine ⟨?_, ?_, by norm_num, by norm_num⟩ <;>
  · simp [smear, exP2, CovParams.cEff_inv, safe_inverse, safeInv, Matrix.mulVec,
      Matrix.dotProduct, Fin.sum_univ_two, Matrix.cons_val_zero, Matrix.cons_val_one,
      Matrix.head_cons, Matrix.vecHead, Matrix.vecTail]
    norm_num

/-- C2 amended: the first `smear` on the spec's concrete scenario
returns the posterior `[92, 108]`. -/
theorem c2_amended :
    (smear exP2 (initMixState 2 2) ![100, 100]).2 0 = 92 ∧
    (smear exP2 (initMixState 2 2) ![100, 100]).2 1 = 108 := by
  constructor <;>
  · simp [smear, exP2, CovParams.cEff_inv, safe_inverse, safeInv, Matrix.mulVec,
      Matrix.dotProduct, Fin.sum_univ_two, Matrix.cons_val_zero, Matrix.cons_val_one,
      Matrix.head_cons, Matrix.vecHead, Matrix.vecTail]
    norm_num

/-- C9 fails as stated: `multinomial_covariance` indexes `nc_inv` by
the cause column, not by the effect row.  At `nc_inv = [1, 2]`,
`R = [[1/2,1/3],[1/4,1/5]]`, the diagonal entry for effect row 0 and
cause column 1 is `nc_inv[1]·R[0,1]·(1−R[0,1]) = 4/9`, while the
claim's `nc_inv[e]`-formula gives `nc_inv[0]·R[0,1]·(1−R[0,1]) = 2/9`. -/
theorem c9_counterexample :
    multinomial_covariance 2 2 ![1, 2] !![1/2, 1/3; 1/4, 1/5]
        ((0 : Fin 2), (1 : Fin 2)) ((0 : Fin 2), (1 : Fin 2)) = 4/9 ∧
    (![1, 2] : Fin 2 → ℚ) 0 * (1/3) * (1 - 1/3) = 2/9 ∧
    (4/9 : ℚ) ≠ 2/9 := by
  refine ⟨?_, by norm_num, by norm_num⟩
  simp [multinomial_covariance, Matrix.cons_val_zero, Matrix.cons_val_one,
    Matrix.head_cons, Matrix.vecHead, Matrix.vecTail]
  norm_num

/-- C9 amended: with `nc_inv` indexed by the cause column `c`, the
helper returns the matrix whose diagonal-block diagonal entries are
`nc_inv[c]·R[e,c]·(1−R[e,c])`, whose cross-row entries (same cause
column, different effect rows) are `−nc_inv[c]·R[e,c]·R[e',c]` for both
orderings, and which vanishes on columns-differ entries. -/
theorem c9_amended (ebins cbins : ℕ) (nc_inv : Fin cbins → ℚ)
    (pec : Matrix (Fin ebins) (Fin cbins) ℚ) (ej ek : Fin ebins) (ti tk : Fin cbins) :
    multinomial_covariance ebins cbins nc_inv pec (ej, ti) (ej, ti)
        = nc_inv ti * pec ej ti * (1 - pec ej ti) ∧
    (ej ≠ ek → multinomial_covariance ebins cbins nc_inv pec (ej, ti) (ek, ti)
        = -(nc_inv ti) * pec ej ti * pec ek ti) ∧
    (ti ≠ tk → multinomial_covariance ebins cbins nc_inv pec (ej, ti) (ek, tk) = 0) := by
  refine ⟨by simp [multinomial_covariance], fun h => ?_, fun h => ?_⟩
  · simp [multinomial_covariance, h]
  · simp [multinomial_covariance, h]

/-- Witness for C9 amended at a concrete 2×2 instance. -/
theorem c9_amended_witness :
    (0 : Fin 2) ≠ (1 : Fin 2) ∧
    multinomial_covariance 2 2 ![1, 2] !![1/2, 1/3; 1/4, 1/5]
        ((0 : Fin 2), (1 : Fin 2)) ((1 : Fin 2), (1 : Fin 2))
      = -((![1, 2] : Fin 2 → ℚ) 1) * (!![1/2, 1/3; 1/4, 1/5] : Matrix (Fin 2) (Fin 2) ℚ) 0 1
          * (!![1/2, 1/3; 1/4, 1/5] : Matrix (Fin 2) (Fin 2) ℚ) 1 1 :=
  ⟨by decide,
    (c9_amended 2 2 ![1, 2] !![1/2, 1/3; 1/4, 1/5] 0 1 1 1).2.1 (by decide)⟩

/-- C10: a `smear` call whose prior has the wrong length fails with the
shape-mismatch error before any state is touched — the returned state
is the input state, so the cached `Mij`, the persisted Jacobians and
the counter are all unchanged.  (In the source the length check is the
first statement of `Mixer.smear`, before any assignment.) -/
theorem c10_smear_atomic (m : LMixer) (n_c : List ℚ) (h : n_c.length ≠ m.cbins) :
    lSmear m n_c = (m, Except.error LErr.lShapeMismatch) := by
  simp [lSmear, h]

/-- Witness for C10: the empty prior against a 2-cause-bin mixer. -/
theorem c10_smear_atomic_witness :
    ([] : List ℚ).length ≠ exL0.cbins ∧
    lSmear exL0 [] = (exL0, Except.error LErr.lShapeMismatch) :=
  ⟨by decide, c10_smear_atomic exL0 [] (by decide)⟩

/-- C8 fails as stated: the efficiency vector's length is never
validated.  Constructing a `Mixer` whose response has 2 cause bins with
the length-1 efficiency vector `[1]` succeeds, and `smear` with a
correct-length prior broadcasts the efficiency and returns a complete
2-entry posterior — no ShapeMismatch failure is ever surfaced for this
dimension mismatch. -/
theorem c8_counterexample :
    exL0.cEff.length = 1 ∧ exL0.cbins = 2 ∧
    mkLMixer [10] [1] [1] [1] [[1/2, 1/2]] [[0, 0]] "poisson" = Except.ok exL0 ∧
    (lSmear exL0 [3, 4]).2 = Except.ok [30/7, 40/7] ∧
    ([30/7, 40/7] : List ℚ).length = exL0.cbins := by
  refine ⟨by decide, by decide, ?_, ?_, by decide⟩
  · simp [mkLMixer, exL0, strLower, lSafeInverse, safeInv, lzeros]
  · simp [lSmear, exL0, lMatVec, ldot, lSafeInverse, safeInv, bmul, List.range_succ]
    norm_num

/-- C8 amended: the mismatches the source actually checks are surfaced
immediately and atomically — a data vector whose length differs from
the response's row count fails at construction, and a prior whose
length differs from the cause-bin count fails at `smear` with the state
unchanged; but an efficiencies vector whose length differs from the
response's column count is not checked (a length-1 one broadcasts
silently, see the counterexample). -/
theorem c8_amended (data data_err efficiencies efficiencies_err : List ℚ)
    (response response_err : List (List ℚ)) (cov_type : String)
    (m : LMixer) (n_c : List ℚ) :
    (data.length ≠ response.length →
      mkLMixer data data_err efficiencies efficiencies_err response response_err cov_type
        = Except.error LErr.lShapeMismatch) ∧
    (n_c.length ≠ m.cbins → lSmear m n_c = (m, Except.error LErr.lShapeMismatch)) := by
  constructor
  · intro h; simp [mkLMixer, h]
  · intro h; simp [lSmear, h]

/-- Witness for C8 amended: a 2-entry data vector against a 1-row
response fails at construction. -/
theorem c8_amended_witness :
    ([1, 2] : List ℚ).length ≠ ([[1]] : List (List ℚ)).length ∧
    mkLMixer [1, 2] [] [] [] [[1]] [] "poisson" = Except.error LErr.lShapeMismatch :=
  ⟨by decide, (c8_amended [1, 2] [] [] [] [[1]] [] "poisson" exL0 []).1 (by decide)⟩

/-- C1 fails as stated: after a second `smear` (so with the iteration
counter at 1) the stored data Jacobian on the concrete 1×1 run is 1,
while the spec's replacement formula
`M · [ (−(M ⊙_col s)ᵗ ⊙_row d) · dn_prev ] + dn_prev ⊙_col r`
evaluates to 0 there: the code keeps the local contribution `M` and
adds the correction terms to it instead of replacing it. -/
theorem c1_counterexample :
    exRun1.1.cov.counter = 1 ∧
    exRun2.1.cov.dcdn 0 0 = 1 ∧
    dn_spec_formula exPa exRun2.1.Mij exRun1.1.cov.dcdn exRun2.2 ![2] 0 0 = 0 ∧
    (1 : ℚ) ≠ 0 := by
  refine ⟨rfl, ?_, ?_, by norm_num⟩ <;>
  · simp [exRun2, exRun1, smear, set_current_state, adye_propagation_corrections,
      dn_spec_formula, initCovState, initMixState, exPa, CovParams.cEff_inv,
      safe_inverse, safeInv, NE_F_R, Matrix.mulVec, Matrix.dotProduct,
      Matrix.mul_apply, Matrix.add_apply, Fin.sum_univ_one, Matrix.cons_val_zero,
      Matrix.cons_val_one, Matrix.head_cons, Matrix.vecHead, Matrix.vecTail]
    try norm_num

/-- C1 amended: when the counter is positive, the stored data Jacobian
is the local contribution `M` **plus** the spec's correction value
`M · [ (−(M ⊙_col s)ᵗ ⊙_row d) · dn_prev ] + dn_prev ⊙_col r` — the
corrections are added to `dn_local = M`, not substituted for it. -/
theorem c1_adye_keeps_local (ebins cbins : ℕ) (p : CovParams ebins cbins)
    (st : CovState ebins cbins) (Mij : Matrix (Fin ebins) (Fin cbins) ℚ)
    (f_norm : Fin ebins → ℚ) (n_c n_c_prev : Fin cbins → ℚ) (h : 0 < st.counter) :
    (set_current_state p st Mij f_norm n_c n_c_prev).dcdn
      = Mij + dn_spec_formula p Mij st.dcdn n_c n_c_prev := by
  simp only [set_current_state, if_pos h, adye_propagation_corrections, dn_spec_formula]
  funext i k
  simp only [Matrix.add_apply, Matrix.mul_apply]
  rw [add_assoc]
  congr 1
  refine congrArg (fun z => z + st.dcdn i k * (n_c k * safeInv (n_c_prev k))) ?_
  refine Finset.sum_congr rfl fun j _ => ?_
  refine congrArg (fun z => Mij i j * z) ?_
  refine Finset.sum_congr rfl fun l _ => ?_
  ring

/-- Witness for C1 amended at a concrete 1×1 state with counter 1. -/
theorem c1_adye_keeps_local_witness :
    0 < (1 : ℕ) ∧
    (set_current_state exPa ⟨!![5], 0, 1⟩ !![2] ![3] ![4] ![6]).dcdn
      = !![2] + dn_spec_formula exPa !![2] !![5] ![4] ![6] :=
  ⟨by decide, c1_adye_keeps_local 1 1 exPa ⟨!![5], 0, 1⟩ !![2] ![3] ![4] ![6] (by decide)⟩

/-- C3 fails as stated: on `exP3` every response column sums to 1 and
every efficiency is 1, yet the posterior sums to 1 while the data sums
to 2 — the second predicted-effect bin is zero, and the safe inverse
silently drops its observed counts. -/
theorem c3_counterexample :
    (∑ i, exP3.pec i 0 = 1) ∧ (∑ i, exP3.pec i 1 = 1) ∧
    exP3.cEff 0 = 1 ∧ exP3.cEff 1 = 1 ∧
    (∑ k, (smear exP3 (initMixState 2 2) ![1, 1]).2 k = 1) ∧
    (∑ i, exP3.NEobs i = 2) ∧ (1 : ℚ) ≠ 2 := by
  refine ⟨?_, ?_, rfl, rfl, ?_, ?_, by norm_num⟩ <;>
  · simp [smear, exP3, CovParams.cEff_inv, safe_inverse, safeInv, Matrix.mulVec,
      Matrix.dotProduct, Fin.sum_univ_two, Matrix.cons_val_zero, Matrix.cons_val_one,
      Matrix.head_cons, Matrix.vecHead, Matrix.vecTail]
    try norm_num

/-- C3 amended: with the additional hypothesis that no predicted-effect
bin `(R·prior)[e]` is zero, the posterior returned by `smear` sums to
the data total whenever the efficiencies are all 1 (the column-sum
hypothesis of the claim is kept although Bayes normalization already
makes it unnecessary). -/
theorem c3_conservation (ebins cbins : ℕ) (p : CovParams ebins cbins)
    (st : MixState ebins cbins) (n_c : Fin cbins → ℚ)
    (hcol : ∀ k, ∑ i, p.pec i k = 1) (heff : ∀ k, p.cEff k = 1)
    (hf : ∀ i, p.pec.mulVec n_c i ≠ 0) :
    ∑ k, (smear p st n_c).2 k = ∑ i, p.NEobs i := by
  have hinv : ∀ k, p.cEff_inv k = 1 := fun k => by
    simp [CovParams.cEff_inv, safe_inverse, safeInv, heff k]
  simp only [smear]
  rw [Finset.sum_comm]
  refine Finset.sum_congr rfl fun i _ => ?_
  have hstep : ∀ k ∈ Finset.univ,
      p.NEobs i * (p.pec i k * (n_c k * p.cEff_inv k) * safe_inverse (p.pec.mulVec n_c) i)
        = (p.NEobs i * safeInv (p.pec.mulVec n_c i)) * (p.pec i k * n_c k) := fun k _ => by
    rw [hinv k]
    simp only [safe_inverse]
    ring
  rw [Finset.sum_congr rfl hstep, ← Finset.mul_sum]
  have hsum : ∑ k, p.pec i k * n_c k = p.pec.mulVec n_c i := by
    simp [Matrix.mulVec, Matrix.dotProduct]
  rw [hsum, mul_assoc, safeInv, if_neg (hf i), one_div, inv_mul_cancel₀ (hf i), mul_one]

/-- Witness for C3 amended on `exPa` with prior `[2]`. -/
theorem c3_conservation_witness :
    ∑ k, (smear exPa (initMixState 1 1) ![2]).2 k = ∑ i, exPa.NEobs i := by
  refine c3_conservation 1 1 exPa (initMixState 1 1) ![2] ?_ ?_ ?_ <;> intro x <;>
  · fin_cases x
    simp [exPa, Matrix.mulVec, Matrix.dotProduct, Fin.sum_univ_one]
    try norm_num

/-- C5: a `smear` from a fresh state (counter 0) stores `dn` equal to
that call's mixing matrix and `dP` equal to the first-order term
`dP⁰[c, (e,k)] = −g[e]·M[e,c]·n_prev[k]` plus, on `k = c`,
`(n_prev[c]·g[e] − n_new[c])·eff_inv[c]`, where
`g[e] = d[e]·f_inv[e]`; the Adye branch is not taken. -/
theorem c5_zeroth_iteration (ebins cbins : ℕ) (p : CovParams ebins cbins)
    (st : MixState ebins cbins) (n_c : Fin cbins → ℚ) (h : st.cov.counter = 0) :
    (smear p st n_c).1.cov.dcdn = (smear p st n_c).1.Mij ∧
    (smear p st n_c).1.cov.dcdP = fun ti q =>
      -(p.NEobs q.1 * safeInv (p.pec.mulVec n_c q.1) * (smear p st n_c).1.Mij q.1 ti)
          * n_c q.2 +
        (if q.2 = ti then
          (n_c ti * (p.NEobs q.1 * safeInv (p.pec.mulVec n_c q.1)) - (smear p st n_c).2 ti)
            * safeInv (p.cEff ti)
        else 0) := by
  constructor
  · simp [smear, set_current_state, h]
  · funext ti q
    simp only [smear, set_current_state, initDcdP, NE_F_R, CovParams.cEff_inv,
      safe_inverse, h, Nat.lt_irrefl, if_false]
    split_ifs <;> ring

/-- Witness for C5: the first `smear` of `exPa` from the fresh state. -/
theorem c5_zeroth_iteration_witness :
    (initMixState 1 1).cov.counter = 0 ∧
    (smear exPa (initMixState 1 1) ![1]).1.cov.dcdn
      = (smear exPa (initMixState 1 1) ![1]).1.Mij ∧
    (smear exPa (initMixState 1 1) ![1]).1.cov.dcdP = exDPval := by
  refine ⟨rfl, (c5_zeroth_iteration 1 1 exPa (initMixState 1 1) ![1] rfl).1, ?_⟩
  rw [(c5_zeroth_iteration 1 1 exPa (initMixState 1 1) ![1] rfl).2]
  funext ti q
  simp [exDPval, exPa, smear, CovParams.cEff_inv, safe_inverse, safeInv,
    Matrix.mulVec, Matrix.dotProduct, Fin.sum_univ_one, Fin.fin_one_eq_zero,
    Matrix.cons_val_zero, Matrix.head_cons, Matrix.vecHead, Matrix.vecTail]
  try norm_num

/-- C6: for a poisson-mode construction, `getVc0` is symmetric, and
whatever matrices `getVc1` and `get_cov` return are symmetric, for
every value of the persisted Jacobians (in particular for the
Jacobians reached after any number of `smear` iterations). -/
theorem c6_symmetry (ebins cbins : ℕ) (p : CovParams ebins cbins)
    (h : p.covTypeLow = "poisson") (dcdn : Matrix (Fin ebins) (Fin cbins) ℚ)
    (dcdP : Matrix (Fin cbins) (Fin ebins × Fin cbins) ℚ) :
    (getVc0 p dcdn).IsSymm ∧
    (∀ V, getVc1 p dcdP = Except.ok V → V.IsSymm) ∧
    (∀ V, get_cov p dcdn dcdP = Except.ok V → V.IsSymm) := by
  have h0 : (getVc0 p dcdn).IsSymm := by
    unfold getVc0 getVcd Matrix.IsSymm
    rw [Matrix.transpose_mul, Matrix.transpose_mul, Matrix.transpose_transpose,
      Matrix.diagonal_transpose, ← Matrix.mul_assoc]
  have hPP : getVcPP p = Except.ok (poisson_covariance ebins cbins p.pec_err) := by
    simp [getVcPP, h]
  have hv1 : getVc1 p dcdP
      = Except.ok (dcdP * poisson_covariance ebins cbins p.pec_err * dcdP.transpose) := by
    rw [getVc1, hPP]; rfl
  have h1 : ∀ V, getVc1 p dcdP = Except.ok V → V.IsSymm := by
    intro V hV
    rw [hv1] at hV
    injection hV with hV
    subst hV
    unfold Matrix.IsSymm poisson_covariance
    rw [Matrix.transpose_mul, Matrix.transpose_mul, Matrix.transpose_transpose,
      Matrix.diagonal_transpose, ← Matrix.mul_assoc]
  have h2 : ∀ V, get_cov p dcdn dcdP = Except.ok V → V.IsSymm := by
    intro V hV
    rw [get_cov, hv1] at hV
    injection hV with hV
    subst hV
    exact h0.add (h1 _ hv1)
  exact ⟨h0, h1, h2⟩

/-- Witness for C6 on a concrete 1×1 poisson instance: `Vc0`, the
matrix returned by `getVc1` and the matrix returned by `get_cov` are
symmetric. -/
theorem c6_symmetry_witness :
    (getVc0 exP6 !![3]).IsSymm ∧
    Matrix.IsSymm (exDP1 * poisson_covariance 1 1 exP6.pec_err * exDP1.transpose) ∧
    Matrix.IsSymm (getVc0 exP6 !![3]
      + exDP1 * poisson_covariance 1 1 exP6.pec_err * exDP1.transpose) := by
  have H := c6_symmetry 1 1 exP6 rfl !![3] exDP1
  have hPP : getVcPP exP6 = Except.ok (poisson_covariance 1 1 exP6.pec_err) := by
    simp [getVcPP, exP6]
  have hv1 : getVc1 exP6 exDP1
      = Except.ok (exDP1 * poisson_covariance 1 1 exP6.pec_err * exDP1.transpose) := by
    rw [getVc1, hPP]; rfl
  have hcov : get_cov exP6 !![3] exDP1
      = Except.ok (getVc0 exP6 !![3]
          + exDP1 * poisson_covariance 1 1 exP6.pec_err * exDP1.transpose) := by
    rw [get_cov, hv1]
  exact ⟨H.1, H.2.1 _ hv1, H.2.2 _ hcov⟩

/-- C7: constructing a `CovarianceMatrix` with a tag that lowers to
"multinomial" succeeds (no failure at construction time), and the
NotImplemented failure surfaces exactly when `getVcPP`, `getVc1` or
`get_cov` is invoked on the constructed object. -/
theorem c7_multinomial_deferred (ebins cbins : ℕ) (data data_err : Fin ebins → ℚ)
    (efficiencies efficiencies_err : Fin cbins → ℚ)
    (response response_err : Matrix (Fin ebins) (Fin cbins) ℚ)
    (cov_type : String) (h : strLower cov_type = "multinomial") :
    mkCovarianceMatrix ebins cbins data data_err efficiencies efficiencies_err
        response response_err cov_type
      = Except.ok (covParamsOf ebins cbins data data_err efficiencies efficiencies_err
          response response_err "multinomial") ∧
    getVcPP (covParamsOf ebins cbins data data_err efficiencies efficiencies_err
        response response_err "multinomial") = Except.error MixErr.notImplemented ∧
    (∀ dP, getVc1 (covParamsOf ebins cbins data data_err efficiencies efficiencies_err
        response response_err "multinomial") dP = Except.error MixErr.notImplemented) ∧
    (∀ dn dP, get_cov (covParamsOf ebins cbins data data_err efficiencies efficiencies_err
        response response_err "multinomial") dn dP
      = Except.error MixErr.notImplemented) := by
  have hPP : getVcPP (covParamsOf ebins cbins data data_err efficiencies efficiencies_err
      response response_err "multinomial") = Except.error MixErr.notImplemented := by
    rw [getVcPP]
    rw [if_neg (by simp [covParamsOf]), if_pos (by simp [covParamsOf])]
  refine ⟨?_, hPP, fun dP => by rw [getVc1, hPP]; rfl,
    fun dn dP => by rw [get_cov, getVc1, hPP]; rfl⟩
  rw [mkCovarianceMatrix, if_neg (not_not_intro (Or.inl h)), h]

/-- Witness for C7 with the mixed-case tag "Multinomial" on a 1×1
instance: construction succeeds, every covariance read fails. -/
theorem c7_multinomial_deferred_witness :
    strLower "Multinomial" = "multinomial" ∧
    mkCovarianceMatrix 1 1 ![4] ![1] ![1] ![1] !![3] !![2] "Multinomial"
      = Except.ok (covParamsOf 1 1 ![4] ![1] ![1] ![1] !![3] !![2] "multinomial") ∧
    getVcPP (covParamsOf 1 1 ![4] ![1] ![1] ![1] !![3] !![2] "multinomial")
      = Except.error MixErr.notImplemented ∧
    getVc1 (covParamsOf 1 1 ![4] ![1] ![1] ![1] !![3] !![2] "multinomial") 0
      = Except.error MixErr.notImplemented ∧
    get_cov (covParamsOf 1 1 ![4] ![1] ![1] ![1] !![3] !![2] "multinomial") 0 0
      = Except.error MixErr.notImplemented := by
  have h : strLower "Multinomial" = "multinomial" := by decide
  have H := c7_multinomial_deferred 1 1 ![4] ![1] ![1] ![1] !![3] !![2] "Multinomial" h
  exact ⟨h, H.1, H.2.1, H.2.2.1 0, H.2.2.2 0 0⟩

end PyUnfold
